import Mathlib

/-!
Verification of the Starsector Vortex extension (TypeScript sources
`src/updates.ts`, `src/index.ts` and the mod-metadata reader appended to them).

The development shallowly embeds the JavaScript runtime behaviour of the
relevant functions: JavaScript values are modelled by `JsValue`, objects by
association lists, machine strings by Lean `String`, and the JavaScript
`NaN`-producing `parseInt` by `Option Int`.  External collaborators (the axios
HTTP client, the hjson parser, the semver library, the filesystem) are passed
in as explicit oracle parameters, exactly where the source defers to them.

All string primitives used by the source (`String.prototype.replace` with a
*string* pattern, `String.prototype.split` with a *string* separator and a
limit, `padEnd`, `parseInt`, `path.basename`, `path.extname`) are re-implemented
here with their ECMAScript semantics, since several of the source's apparent
regex calls (`replace("[^0-9.-]", "")`, `replace("\\D", "")`, `split("\\.")`)
actually pass plain strings and therefore operate on literal substrings.
-/

/-- A JavaScript runtime value, as far as the embedded code needs it:
`undefined`, `null`, booleans, (integer) numbers, strings, plain objects as
association lists of own properties, and arrays. -/
inductive JsValue where
  | undefined
  | null
  | bool (b : Bool)
  | num (n : Int)
  | str (s : String)
  | obj (props : List (String × JsValue))
  | arr (elems : List JsValue)

/-- Errors a modelled JavaScript evaluation can throw. -/
inductive JsError where
  | typeError (msg : String)

/-- First-match lookup in an object's own-property list. -/
def lookupAssoc : List (String × JsValue) → String → Option JsValue
  | [], _ => none
  | (k', v) :: rest, k => if k' = k then some v else lookupAssoc rest k

/-- In-place update (or append) of an own property, as JavaScript property
assignment behaves on a plain object. -/
def setAssoc : List (String × JsValue) → String → JsValue → List (String × JsValue)
  | [], k, v => [(k, v)]
  | (k', v') :: rest, k, v =>
    if k' = k then (k, v) :: rest else (k', v') :: setAssoc rest k v

/-- JavaScript property read `v[k]` on a non-null value: own property if the
value is an object, `undefined` otherwise (primitives have no own string
properties of interest here).  Call sites where the source can throw (reads on
`null`/`undefined`) are modelled explicitly at those call sites. -/
def jsGet (v : JsValue) (k : String) : JsValue :=
  match v with
  | .obj l => (lookupAssoc l k).getD .undefined
  | _ => .undefined

/-- JavaScript property write `v[k] = x`: updates an object; on a primitive the
write is silently discarded (non-strict mode). -/
def jsSetProp (v : JsValue) (k : String) (x : JsValue) : JsValue :=
  match v with
  | .obj l => .obj (setAssoc l k x)
  | other => other

/-- JavaScript truthiness. -/
def jsTruthy : JsValue → Bool
  | .undefined => false
  | .null => false
  | .bool b => b
  | .num n => n != 0
  | .str s => s ≠ ""
  | .obj _ => true
  | .arr _ => true

/-- Whether a value is a string primitive (`typeof v === 'string'`). -/
def JsValue.isString : JsValue → Bool
  | .str _ => true
  | _ => false

/-- `hasOwnProperty`, as used by `getSafe` in `index.ts`. -/
def jsHasOwn (v : JsValue) (k : String) : Bool :=
  match v with
  | .obj l => (lookupAssoc l k).isSome
  | _ => false

/-- `getSafe` from `index.ts` (lines 320-330), which is also the behaviour of
`util.getSafe` from the vortex-api used throughout `updates.ts`: walk the key
path, returning the fallback as soon as the current value is `undefined`,
`null`, or lacks the key as an own property. -/
def getSafeJs : JsValue → List String → JsValue → JsValue
  | cur, [], _ => cur
  | cur, k :: rest, fb =>
    match cur with
    | .undefined => fb
    | .null => fb
    | c => if jsHasOwn c k then getSafeJs (jsGet c k) rest fb else fb

/-! ## ECMAScript string primitives -/

/-- Does `p` occur at the head of `l`? -/
def leadsWith : List Char → List Char → Bool
  | [], _ => true
  | _ :: _, [] => false
  | p :: ps, c :: cs => p == c && leadsWith ps cs

/-- Replace the first occurrence of the literal pattern `pat` in `l` by `rep`
(the behaviour of `String.prototype.replace` when its first argument is a
string, which is how `updates.ts` calls it). -/
def replaceFirstAux (pat rep : List Char) : List Char → List Char
  | [] => []
  | c :: cs =>
    if leadsWith pat (c :: cs) then rep ++ (c :: cs).drop pat.length
    else c :: replaceFirstAux pat rep cs

/-- `s.replace(pat, rep)` with a string pattern: only the first literal
occurrence is replaced; an empty pattern matches at position 0. -/
def jsReplaceFirst (s pat rep : String) : String :=
  if pat = "" then rep ++ s
  else ⟨replaceFirstAux pat.data rep.data s.data⟩

/-- Splitter for `String.prototype.split` with a non-empty string separator.
The fuel is the length of the input plus one, which suffices because every
step consumes at least one character. -/
def splitAux (sep : List Char) : Nat → List Char → List Char → List (List Char)
  | _, acc, [] => [acc.reverse]
  | 0, acc, l => [acc.reverse ++ l]
  | fuel + 1, acc, c :: cs =>
    if leadsWith sep (c :: cs) then
      acc.reverse :: splitAux sep fuel [] ((c :: cs).drop sep.length)
    else
      splitAux sep fuel (c :: acc) cs

/-- `s.split(sep)` for a non-empty string separator (every call in the source
uses a non-empty separator). -/
def jsSplit (s sep : String) : List String :=
  (splitAux sep.data (s.data.length + 1) [] s.data).map fun l => ⟨l⟩

/-- `s.split(sep, limit)`: JavaScript truncates the result to `limit` parts. -/
def jsSplitLimit (s sep : String) (limit : Nat) : List String :=
  (jsSplit s sep).take limit

/-- Longest digit run at the head of a character list, as a number. -/
def digitsValue : List Char → Option Nat
  | l =>
    let ds := l.takeWhile Char.isDigit
    if ds.isEmpty then none
    else some (ds.foldl (fun n c => n * 10 + (c.toNat - 48)) 0)

/-- `parseInt` in base 10: skip leading whitespace, accept an optional sign,
then parse the longest digit run; `none` models `NaN`. -/
def parseIntJs (s : String) : Option Int :=
  match s.data.dropWhile Char.isWhitespace with
  | '-' :: rest => (digitsValue rest).map fun n => -(n : Int)
  | '+' :: rest => (digitsValue rest).map fun n => (n : Int)
  | l => (digitsValue l).map fun n => (n : Int)

/-- JavaScript `>` on numbers where `none` models `NaN`: any comparison with
`NaN` is false. -/
def jsNanGt : Option Int → Option Int → Bool
  | some x, some y => x > y
  | _, _ => false

/-- Length of the common leading run of equal segments (the `while` loop of
`isRemoteVersionNewer`, lines 125-130 of `updates.ts`). -/
def commonLeadLen : List String → List String → Nat
  | a :: as, b :: bs => if a = b then commonLeadLen as bs + 1 else 0
  | _, _ => 0

/-! ## `isRemoteVersionNewer` (`updates.ts` lines 99-147)

The source strings `"[^0-9.-]"`, `"\\D"` and `"\\."` are passed to
`String.prototype.replace` / `split` as plain strings, so they denote literal
substrings, not character classes; and `remotePadded.compareTo(localPadded)`
calls a method that does not exist on JavaScript strings, so reaching line 136
throws a `TypeError`.  Both behaviours are modelled faithfully. -/

/-- `isRemoteVersionNewer(localVersion, remoteVersion)` from `updates.ts`.
`none` models a `null`/`undefined` argument; the result is `Except` because
line 136 (`remotePadded.compareTo(localPadded)`) throws a `TypeError` whenever
it is reached. -/
def isRemoteVersionNewer (localVersion remoteVersion : Option String) :
    Except JsError Bool :=
  match localVersion, remoteVersion with
  | none, _ => .ok false
  | _, none => .ok false
  | some lv, some rv =>
    let localRaw := jsSplitLimit (jsReplaceFirst lv "[^0-9.-]" "") "-" 2
    let remoteRaw := jsSplitLimit (jsReplaceFirst rv "[^0-9.-]" "") "-" 2
    let vLocal := localRaw.headD ""
    let vRemote := remoteRaw.headD ""
    let rcLocalRaw :=
      if localRaw.length > 1 then jsReplaceFirst (localRaw.getD 1 "") "\\D" "" else "0"
    let rcRemoteRaw :=
      if remoteRaw.length > 1 then jsReplaceFirst (remoteRaw.getD 1 "") "\\D" "" else "0"
    let rcLocal : Option Int :=
      if rcLocalRaw.length = 0 then some 0 else parseIntJs rcLocalRaw
    let rcRemote : Option Int :=
      if rcRemoteRaw.length = 0 then some 0 else parseIntJs rcRemoteRaw
    if vLocal ≠ vRemote then
      let localMajorMinor := jsSplit vLocal "\\."
      let remoteMajorMinor := jsSplit vRemote "\\."
      let i := commonLeadLen localMajorMinor remoteMajorMinor
      if i < localMajorMinor.length ∧ i < remoteMajorMinor.length then
        -- line 134-136: both sides are padded with `padEnd(3, '0')`, and then
        -- `remotePadded.compareTo(localPadded)` is called; JavaScript strings
        -- have no `compareTo` method, so this throws.
        .error (.typeError "remotePadded.compareTo is not a function")
      else
        .ok (remoteMajorMinor.length > localMajorMinor.length)
    else
      .ok (jsNanGt rcRemote rcLocal)

example : jsSplit "0.6" "\\." = ["0.6"] := by decide
example : jsSplitLimit "0.65.2a-RC1" "-" 2 = ["0.65.2a", "RC1"] := by decide
example : jsReplaceFirst "RC1" "\\D" "" = "RC1" := by decide
example : parseIntJs "RC1" = none := by decide
example : parseIntJs "12ab" = some 12 := by decide
example : isRemoteVersionNewer (some "0.6") (some "0.65") =
    .error (.typeError "remotePadded.compareTo is not a function") := by rfl
example : isRemoteVersionNewer (some "0.65.2a-RC1") (some "0.65.2a-RC2") =
    .ok false := by rfl
example : isRemoteVersionNewer none (some "1") = .ok false := rfl
example : isRemoteVersionNewer (some "") (some "0.65") =
    .error (.typeError "remotePadded.compareTo is not a function") := by rfl

/-! ## Path helpers (`path.basename`, `path.extname`) -/

/-- Characters after the last path separator. -/
def basenameChars (l : List Char) : List Char :=
  l.foldl (fun acc c => if c = '/' then [] else acc ++ [c]) []

/-- `path.basename` for separator-normalized paths without a trailing slash
(the only shape the embedded call sites receive). -/
def basename (p : String) : String :=
  ⟨basenameChars p.data⟩

/-- `path.extname`: suffix of the basename from its last dot, where a dot at
position 0 (a dotfile) does not count. -/
def extname (p : String) : String :=
  let b := basenameChars p.data
  let r := b.reverse
  match r.findIdx? (· = '.') with
  | none => ""
  | some j => if j + 1 = b.length then "" else ⟨(r.take (j + 1)).reverse⟩

example : basename "a/b/mod_info.json" = "mod_info.json" := by decide
example : extname "a/b/lazylib.version" = ".version" := by decide
example : extname "a/.version" = "" := by decide
example : extname "a/mod_info.json" = ".json" := by decide

/-! ## Constants from `index.ts` -/

def GAME_ID : String := "starsector"
def MOD_INFO_FILE : String := "mod_info.json"
def VERSION_CHECKER_FILE_EXT : String := ".version"
def STARSECTOR_FORUM_URL : String := "https://fractalsoftworks.com/forum/index.php"

/-! ## The attribute container of `readModMetadata`

`readModMetadata` allocates `new Map<string, string>()` but then writes every
attribute with bracket assignment (`attributes[key] = value`), which on a `Map`
object creates plain own properties and leaves the internal map data empty.
`JsMap` keeps both parts so this distinction is visible: `entries` is the
internal `[[MapData]]` written only by `Map.prototype.set`, `props` the own
properties written by bracket assignment. -/

structure JsMap where
  entries : List (String × JsValue)
  props : List (String × JsValue)

def emptyJsMap : JsMap := ⟨[], []⟩

/-- Bracket assignment `m[k] = v` on a `Map` object: an own property, not a
map entry. -/
def JsMap.bracketSet (m : JsMap) (k : String) (v : JsValue) : JsMap :=
  { m with props := setAssoc m.props k v }

/-- `Map.prototype.set`, which the source never calls on `attributes`. -/
def JsMap.mapSet (m : JsMap) (k : String) (v : JsValue) : JsMap :=
  { m with entries := m.entries ++ [(k, v)] }

/-- Own-property read `m[k]` on the `Map` object. -/
def JsMap.propGet (m : JsMap) (k : String) : JsValue :=
  (lookupAssoc m.props k).getD .undefined

/-- One file handed to `readModMetadata`: its absolute path together with the
text `fs.readFileAsync` yields for it (the filesystem is modelled by supplying
each file's contents up front). -/
structure FileEntry where
  path : String
  content : String

/-- The `getAttr` helper of `readModMetadata` (`updates.ts` lines 178-185 and
263-270): `parsed[key]` inside a `try`.  Property access only throws when
`parsed` is `null`/`undefined` (then the catch returns `""`); on an object a
missing key reads as `undefined`, and on a primitive every key reads as
`undefined` — the catch never fires for those. -/
def readAttr (parsed : JsValue) (k : String) : JsValue :=
  match parsed with
  | .null => .str ""
  | .undefined => .str ""
  | .obj l => (lookupAssoc l k).getD .undefined
  | _ => .undefined

/-- The inline version-object join of `installContent` (`index.ts` lines
495-511): push `major`, `minor`, `patch` when each is `!= null`, apply
`toString`, and join with dots.  Reading a property of `null`/`undefined`
throws (caught by the surrounding try). -/
def joinVersionElements (version : JsValue) : Except JsError String :=
  match version with
  | .null => .error (.typeError "cannot read properties of null")
  | .undefined => .error (.typeError "cannot read properties of undefined")
  | v =>
    let push := fun (elems : List String) (field : String) =>
      match jsGet v field with
      | .null => elems
      | .undefined => elems
      | .str s => elems ++ [s]
      | .num n => elems ++ [toString n]
      | .bool b => elems ++ [toString b]
      | other => elems ++ [if other.isString then "" else "[object Object]"]
    let elems := push (push (push [] "major") "minor") "patch"
    .ok (String.intercalate "." elems)

/-- Modelled from the spec: `concatVersionObject` is exported by `updates.ts`
and called at lines 211 and 284, but its definition is not among the provided
sources.  Per the spec's section 3 dotted-join rule it normalizes a
`{major, minor, patch}` Version value into a dotted string of the present
components, leaves a string version as it is, and produces the empty string
when nothing is present; the second argument (a trim flag at the call sites)
does not affect the values the claims touch. -/
def concatVersionObject (version : JsValue) (_trimFlag : Bool) : JsValue :=
  match version with
  | .str s => .str s
  | .obj _ =>
    match joinVersionElements version with
    | .ok s => .str s
    | .error _ => .str ""
  | _ => .str ""

/-- An installation-blocking rejection (`util.DataInvalid`). -/
inductive ReadError where
  | dataInvalid (msg : String)

/-- The primary-descriptor part of `readModMetadata` (`updates.ts` lines
177-238): reject when `id` reads as `undefined`, trim a string version (a
non-string version's `concatVersionObject(version, false)` result is discarded
by the source, so `version` stays a non-string and the `'version'` attribute is
not written), then bracket-assign the five primary attributes. -/
def primaryAttrs (parsed : JsValue) : Except ReadError JsMap :=
  match readAttr parsed "id" with
  | .undefined => .error (.dataInvalid ("Missing, invalid or unsupported " ++ MOD_INFO_FILE))
  | _ =>
    let version :=
      match readAttr parsed "version" with
      | .str s => JsValue.str s.trim
      | v => v
    let m := emptyJsMap
    let m :=
      match version with
      | .str s => m.bracketSet "version" (.str s)
      | _ => m
    let m := m.bracketSet "modId" (readAttr parsed "name")
    let m := m.bracketSet "modSharedId" (readAttr parsed "id")
    let m := m.bracketSet "modName" (readAttr parsed "name")
    let m := m.bracketSet "author" (readAttr parsed "author")
    let m := m.bracketSet "gameVersion" (readAttr parsed "gameVersion")
    .ok m

/-- The secondary-descriptor part of `readModMetadata` (`updates.ts` lines
272-288): forum thread id, conditionally the forum source URL, the normalized
local version-checker version, and the online version file URL. -/
def secondaryAttrs (m : JsMap) (pv : JsValue) : JsMap :=
  let m := m.bracketSet "forumThreadId" (readAttr pv "modThreadId")
  let m :=
    if jsTruthy (m.propGet "forumThreadId") then
      m.bracketSet "source" (.str STARSECTOR_FORUM_URL)
    else m
  let m := m.bracketSet "localVersionCheckerVersion" (concatVersionObject (readAttr pv "modVersion") true)
  let m := m.bracketSet "onlineVersionUrl" (readAttr pv "masterVersionFile")
  m

/-- `readModMetadata` (`updates.ts` lines 157-295).  The relaxed JSON parser
(`parseJson`: comment stripping plus hjson) is an oracle; `none` models a parse
throw.  File contents are supplied in the `FileEntry` list, modelling
successful `fs.readFileAsync` calls. -/
def readModMetadata (parse : String → Option JsValue) (files : List FileEntry) :
    Except ReadError JsMap :=
  match files.find? (fun fe => basename fe.path == MOD_INFO_FILE) with
  | none =>
    .error (.dataInvalid
      (MOD_INFO_FILE ++ " not found in a folder. The mod may be incorrectly packaged"))
  | some f =>
    match parse f.content with
    | none => .ok emptyJsMap
    | some parsed =>
      match primaryAttrs parsed with
      | .error e => .error e
      | .ok m =>
        match files.find? (fun fe => extname fe.path == VERSION_CHECKER_FILE_EXT) with
        | none => .ok m
        | some vf =>
          match parse vf.content with
          | none => .ok m
          | some pv => .ok (secondaryAttrs m pv)

/-- One attribute instruction pushed by `installContent` (`index.ts` lines
91-97).  `Map.prototype.forEach` passes `(value, key)` to its callback, while
the callback's parameters are named `(key, value)`, so the pushed instruction's
`key` field receives the map entry's value and vice versa. -/
structure AttrInstruction where
  key : JsValue
  value : JsValue

/-- The attribute instructions `installContent` builds from the resolved
`attributes` map by iterating it with `Map.prototype.forEach`, which walks the
internal map data only. -/
def attrInstructionsOf (m : JsMap) : List AttrInstruction :=
  m.entries.map fun kv => { key := kv.2, value := .str kv.1 }

example :
    readModMetadata (fun _ => none) [⟨"mod_info.json", "x"⟩] = .ok emptyJsMap := by rfl
example :
    readModMetadata (fun _ => none) [⟨"a/readme.txt", "x"⟩] =
      .error (.dataInvalid "mod_info.json not found in a folder. The mod may be incorrectly packaged") := by rfl

/-! ## The update checker (`updates.ts` lines 11-94)

External collaborators are oracles: `http` models `axios.request` (the body
text on success, `none` on any network/HTTP error), `parse` models `parseJson`,
`rcmp` models `semver.rcompare` applied to the two `.version` property values,
and `gt` models `semver.gt`. -/

/-- A store dispatch or notification performed by the update checker. -/
inductive UiAction where
  | addNotification (id : String) (message : String) (progressPct : ℚ)
  | setModAttribute (gameId : String) (modId : JsValue) (key : String) (value : JsValue)
  | dismissNotification (id : String)

/-- The `progress()` closure of `checkForStarsectorModsUpdates` (lines 25-33):
dispatch the activity notification with percentage `pos * 100 / total`, then
increment `pos`. -/
def progressAction (pos total : Nat) : UiAction :=
  .addNotification "starsector-check-update-progress"
    "Checking Starsector mods for update" ((pos * 100 : ℚ) / (total : ℚ))

/-- `getOnlineModVersion` (lines 61-69) together with `getApiResponse` (lines
82-94).  Building the log string touches `mod._id`, which throws on a
`null`/`undefined` argument.  `axios.request` with a non-string URL fails, and
any fetch or parse failure is caught and resolved to `null` (`.ok none`).  On
success the handler of line 63-67 stores the fetched descriptor's raw
`modVersion` into `mod.onlineVersion` and returns `mod`. -/
def getOnlineModVersion (http : String → Option String)
    (parse : String → Option JsValue) (arg : JsValue) :
    Except JsError (Option JsValue) :=
  match arg with
  | .null => .error (.typeError "cannot read properties of null (reading _id)")
  | .undefined => .error (.typeError "cannot read properties of undefined (reading _id)")
  | mod =>
    match jsGet mod "versionFileUrl" with
    | .str url =>
      match http url with
      | none => .ok none
      | some body =>
        match parse body with
        | none => .ok none
        | some vf => .ok (some (jsSetProp mod "onlineVersion" (jsGet vf "modVersion")))
    | _ => .ok none

/-- `Promise.all` over the per-mod fetches: the first rejection rejects the
join; otherwise the resolved values in order, with `null` results kept as
`JsValue.null`. -/
def collectFetches : List (Except JsError (Option JsValue)) →
    Except JsError (List JsValue)
  | [] => .ok []
  | .error e :: _ => .error e
  | .ok v :: rest => (collectFetches rest).map fun l => (v.getD .null) :: l

/-- Line 35-40: map every mod to `getOnlineModVersion(util.getSafe(
mod.attributes, ['modId'], null))` and join the promises. -/
def fetchAll (http : String → Option String) (parse : String → Option JsValue)
    (mods : List JsValue) : Except JsError (List JsValue) :=
  collectFetches (mods.map fun m =>
    getOnlineModVersion http parse (getSafeJs (jsGet m "attributes") ["modId"] .null))

/-- Stable insertion of `a` into a list already sorted by the JavaScript
comparator `cmp`: `a` passes every element strictly before it. -/
def insertByCmp (cmp : JsValue → JsValue → Int) (a : JsValue) :
    List JsValue → List JsValue
  | [] => [a]
  | b :: bs => if cmp b a < 0 then b :: insertByCmp cmp a bs else a :: b :: bs

/-- A stable comparator sort, modelling `Array.prototype.sort`. -/
def sortByCmp (cmp : JsValue → JsValue → Int) : List JsValue → List JsValue
  | [] => []
  | a :: as => insertByCmp cmp a (sortByCmp cmp as)

/-- Line 45's comparator-sort of `su.versions`, with `semver.rcompare` as the
oracle `rcmp` applied to the two elements' `version` properties. -/
def sortVersionsByRcmp (rcmp : JsValue → JsValue → Int) (vs : List JsValue) :
    List JsValue :=
  sortByCmp (fun a b => rcmp (jsGet a "version") (jsGet b "version")) vs

/-- The body of the `updates` filter (lines 41-47) evaluated on one joined
fetch result `su`: sort `su.versions` in place, then test
`semver.gt(su.versions[0].version, util.getSafe(su.mod.attributes, ['version'],
'0.0.0'))`.  A `null` join result (a failed fetch) throws on `su.versions`; a
missing or non-array `versions` throws on `.sort`; an empty sorted array makes
`su.versions[0]` `undefined` and `.version` throw; `su.mod.attributes` throws
when `su.mod` is `null`/`undefined`.  Returns the mutated `su` and the filter
verdict. -/
def suUpdateStep (rcmp : JsValue → JsValue → Int) (gt : JsValue → JsValue → Bool)
    (su : JsValue) : Except JsError (JsValue × Bool) :=
  match su with
  | .null => .error (.typeError "cannot read properties of null (reading versions)")
  | .undefined => .error (.typeError "cannot read properties of undefined (reading versions)")
  | .obj props =>
    match lookupAssoc props "versions" with
    | some (.arr vs) =>
      match sortVersionsByRcmp rcmp vs with
      | [] => .error (.typeError "cannot read properties of undefined (reading version)")
      | v0 :: sortedRest =>
        match lookupAssoc props "mod" with
        | some .null => .error (.typeError "cannot read properties of null (reading attributes)")
        | some .undefined => .error (.typeError "cannot read properties of undefined (reading attributes)")
        | none => .error (.typeError "cannot read properties of undefined (reading attributes)")
        | some m =>
          .ok (.obj (setAssoc props "versions" (.arr (v0 :: sortedRest))),
               gt (jsGet v0 "version")
                  (getSafeJs (jsGet m "attributes") ["version"] (.str "0.0.0")))
    | _ => .error (.typeError "su.versions.sort is not a function")
  | _ => .error (.typeError "su.versions.sort is not a function")

/-- The `updates` filter over the whole joined list: JavaScript's
`Array.prototype.filter` runs the predicate left to right and the first throw
propagates. -/
def computeUpdates (rcmp : JsValue → JsValue → Int) (gt : JsValue → JsValue → Bool) :
    List JsValue → Except JsError (List JsValue)
  | [] => .ok []
  | su :: rest => do
    let r ← suUpdateStep rcmp gt su
    let tail ← computeUpdates rcmp gt rest
    .ok (if r.2 then r.1 :: tail else tail)

/-- `su.versions[0]` of a filtered result (used at lines 49 and 53-54). -/
def firstElem : JsValue → JsValue
  | .arr (x :: _) => x
  | _ => .undefined

/-- The per-update loop (lines 51-57): three `setModAttribute` dispatches and
one `progress()` call per found update, with `pos` counting on. -/
def updateActions (gameId : String) (now : Int) (total : Nat) :
    Nat → List JsValue → List UiAction
  | _, [] => []
  | pos, su :: rest =>
    let upd := firstElem (jsGet su "versions")
    let modId := jsGet (jsGet su "mod") "id"
    UiAction.setModAttribute gameId modId "newestVersion" (jsGet upd "version") ::
    UiAction.setModAttribute gameId modId "newestFileId" (jsGet upd "_id") ::
    UiAction.setModAttribute gameId modId "lastUpdateTime" (.num now) ::
    progressAction pos total ::
    updateActions gameId now total (pos + 1) rest

/-- `checkForStarsectorModsUpdates` (lines 11-59): the dispatched actions in
order, together with the rejection the returned promise ends in, if any.
Other games and an empty mod list complete silently; otherwise one initial
`progress()` at 0%, the joined concurrent fetches, the `updates` filter, the
per-update dispatches, and finally `dismissNotification('bs-check-update-progress')`
— an id that differs from the `'starsector-check-update-progress'` id the
progress notification was posted under. -/
def checkForStarsectorModsUpdates (http : String → Option String)
    (parse : String → Option JsValue) (rcmp : JsValue → JsValue → Int)
    (gt : JsValue → JsValue → Bool) (now : Int) (gameId : String)
    (mods : List JsValue) : List UiAction × Option JsError :=
  if gameId ≠ GAME_ID then ([], none)
  else if mods.isEmpty then ([], none)
  else
    let total := mods.length
    let ev0 := progressAction 0 total
    match fetchAll http parse mods with
    | .error e => ([ev0], some e)
    | .ok modList =>
      match computeUpdates rcmp gt modList with
      | .error e => ([ev0], some e)
      | .ok updates =>
        ([ev0] ++ updateActions gameId now total 1 updates ++
          [.dismissNotification "bs-check-update-progress"], none)

/-- Count of progress notifications among dispatched actions. -/
def countProgress : List UiAction → Nat
  | [] => 0
  | .addNotification id _ _ :: rest =>
    (if id = "starsector-check-update-progress" then 1 else 0) + countProgress rest
  | _ :: rest => countProgress rest

/-! ## Concrete fixtures used by the claim theorems -/

/-- A semver comparator oracle (its value is irrelevant to the facts below). -/
def rcmpAny : JsValue → JsValue → Int := fun _ _ => 0

/-- A `semver.gt` oracle that reports no update. -/
def gtNever : JsValue → JsValue → Bool := fun _ _ => false

/-- A well-shaped `IModDetails`-like record as the update checker expects to
find under the `modId` attribute: remote URL, a one-element `versions` list and
the backing `mod` with its attributes. -/
def detailsFor (idStr url ver : String) : JsValue :=
  .obj [("_id", .str idStr), ("versionFileUrl", .str url),
        ("versions", .arr [.obj [("version", .str ver), ("_id", .str (idStr ++ "-f"))]]),
        ("mod", .obj [("id", .str idStr), ("attributes", .obj [("version", .str ver)])])]

/-- An `IMod` whose `modId` attribute holds the given details record. -/
def modFor (d : JsValue) : JsValue := .obj [("attributes", .obj [("modId", d)])]

/-- HTTP oracle for the batch scenario: the fetch for `urlA` fails, the fetch
for `urlB` succeeds. -/
def httpBatch : String → Option String := fun u => if u = "urlB" then some "bodyB" else none

/-- Parser oracle for the batch scenario. -/
def parseBatch : String → Option JsValue :=
  fun s => if s = "bodyB" then some (.obj [("modVersion", .str "2.0.0")]) else none

/-- The two-mod batch of the fetch-failure scenario. -/
def modsBatch : List JsValue :=
  [modFor (detailsFor "modA" "urlA" "1.0.0"), modFor (detailsFor "modB" "urlB" "1.0.0")]

/-- HTTP oracle for the all-successful scenario. -/
def httpOk : String → Option String := fun u => if u = "urlC" then some "bodyC" else none

/-- Parser oracle for the all-successful scenario. -/
def parseOk : String → Option JsValue :=
  fun s => if s = "bodyC" then some (.obj [("modVersion", .str "1.0.1")]) else none

/-- The one-mod batch of the all-successful scenario. -/
def modsOk : List JsValue := [modFor (detailsFor "modC" "urlC" "1.0.0")]

example :
    checkForStarsectorModsUpdates httpBatch parseBatch rcmpAny gtNever 0 GAME_ID modsBatch =
      ([progressAction 0 2],
       some (.typeError "cannot read properties of null (reading versions)")) := by rfl

example :
    checkForStarsectorModsUpdates httpOk parseOk rcmpAny gtNever 0 GAME_ID modsOk =
      ([progressAction 0 1, .dismissNotification "bs-check-update-progress"], none) := by rfl

example :
    getOnlineModVersion httpBatch parseBatch (detailsFor "modA" "urlA" "1.0.0") = .ok none := by rfl

/-! ## Claim C3 -/

/-- C3: the claim says `isNewer` splits release parts on `.`, pads the first
differing segments to width 3 and compares lexicographically, so that
`isNewer("0.6", "0.65")` returns `true`.  The code instead splits on the
literal two-character string `\.` (leaving each release part as one segment)
and then calls the nonexistent `String.compareTo`, so the call throws a
`TypeError` instead of returning `true`. -/
theorem claim3_eval :
    isRemoteVersionNewer (some "0.6") (some "0.65") =
      .error (.typeError "remotePadded.compareTo is not a function")
    ∧ jsSplit "0.6" "\\." = ["0.6"]
    ∧ jsSplit "0.65" "\\." = ["0.65"] :=
  ⟨rfl, by decide, by decide⟩

/-! ## Claim C7 -/

/-- C7: the claim says that with byte-identical release parts the
release-candidate digits are extracted and compared as integers, making
`isNewer("0.65.2a-RC1", "0.65.2a-RC2")` return `true`.  The code's
`replace("\\D", "")` removes only the literal substring `\D` (a no-op), so
`parseInt("RC1")` and `parseInt("RC2")` are both `NaN`, `NaN > NaN` is false,
and the call returns `false`. -/
theorem claim7_eval :
    isRemoteVersionNewer (some "0.65.2a-RC1") (some "0.65.2a-RC2") = .ok false
    ∧ jsReplaceFirst "RC1" "\\D" "" = "RC1"
    ∧ parseIntJs "RC1" = none
    ∧ parseIntJs "RC2" = none :=
  ⟨rfl, by decide, by decide, by decide⟩

/-! ## Claim C6 -/

/-- C6 (counterexample): the claim says `isNewer(local, remote)` returns
`false` whenever either argument is empty or absent.  An empty string passes
the `== null` guard, falls into the differing-release-parts branch and throws
the `compareTo` `TypeError` instead of returning `false`. -/
theorem claim6_counterexample :
    isRemoteVersionNewer (some "") (some "0.65") =
      .error (.typeError "remotePadded.compareTo is not a function") := rfl

/-- C6 (amended): `isNewer(local, remote)` returns `false` whenever either
argument is absent (`null`/`undefined`), for every value of the other
argument; an empty string is not guarded and falls through to the general
segment comparison. -/
theorem claim6_amended :
    ∀ v : Option String,
      isRemoteVersionNewer none v = .ok false ∧ isRemoteVersionNewer v none = .ok false := by
  intro v
  cases v <;> exact ⟨rfl, rfl⟩

/-! ## Claim C5 -/

/-- C5: the claim says a fetch failure for one mod does not abort the batch
and merely excludes that mod.  The fetch helper does resolve the failed fetch
to no data (`.ok none`, dispatched into the join as `null`), but the `updates`
filter then reads `.versions` of that `null`, throwing a `TypeError` that
rejects the whole update check: only the initial progress event is emitted,
the successfully fetched second mod is never processed, and the progress
notification is never dismissed. -/
theorem claim5_eval :
    getOnlineModVersion httpBatch parseBatch (detailsFor "modA" "urlA" "1.0.0") = .ok none
    ∧ checkForStarsectorModsUpdates httpBatch parseBatch rcmpAny gtNever 0 GAME_ID modsBatch =
        ([progressAction 0 2],
         some (.typeError "cannot read properties of null (reading versions)")) :=
  ⟨rfl, rfl⟩

/-! ## Claim C4 -/

/-- C4: `readModMetadata` rejects with an installation-blocking `DataInvalid`
error when no candidate file has base name `mod_info.json`; when the file is
present but its content fails to parse, the operation resolves with the still
empty attribute mapping instead of failing. -/
theorem claim4_holds :
    ∀ (parse : String → Option JsValue) (files : List FileEntry),
      (files.find? (fun fe => basename fe.path == MOD_INFO_FILE) = none →
        readModMetadata parse files =
          .error (.dataInvalid
            (MOD_INFO_FILE ++ " not found in a folder. The mod may be incorrectly packaged")))
      ∧ (∀ f, files.find? (fun fe => basename fe.path == MOD_INFO_FILE) = some f →
          parse f.content = none →
          readModMetadata parse files = .ok emptyJsMap) := by
  intro parse files
  constructor
  · intro h
    unfold readModMetadata
    rw [h]
  · intro f h hp
    unfold readModMetadata
    simp only [h, hp]

/-- C4 (witness): both branches at concrete inputs. -/
theorem claim4_witness :
    readModMetadata (fun _ => none) [⟨"a/readme.txt", "x"⟩] =
      .error (.dataInvalid
        (MOD_INFO_FILE ++ " not found in a folder. The mod may be incorrectly packaged"))
    ∧ readModMetadata (fun _ => none) [⟨"mod_info.json", "y"⟩] = .ok emptyJsMap :=
  ⟨(claim4_holds (fun _ => none) [⟨"a/readme.txt", "x"⟩]).1 rfl,
   (claim4_holds (fun _ => none) [⟨"mod_info.json", "y"⟩]).2 ⟨"mod_info.json", "y"⟩ rfl rfl⟩

/-! ## Claim C8 -/

/-- The `{major: "0", minor: "65", patch: "2"}` descriptor version. -/
def versionTriple : JsValue :=
  .obj [("major", .str "0"), ("minor", .str "65"), ("patch", .str "2")]

/-- A parsed `mod_info.json` with an object-form version. -/
def parsedC8 : JsValue := .obj [("id", .str "mymod"), ("version", versionTriple)]

/-- Parser oracle recognizing the C8 descriptor text. -/
def parseC8 : String → Option JsValue := fun s => if s = "infoC8" then some parsedC8 else none

/-- The C8 candidate file list. -/
def filesC8 : List FileEntry := [⟨"mod_info.json", "infoC8"⟩]

/-- The attribute map `readModMetadata` produces for the C8 input. -/
def mC8 : JsMap :=
  ⟨[], [("modId", .undefined), ("modSharedId", .str "mymod"), ("modName", .undefined),
        ("author", .undefined), ("gameVersion", .undefined)]⟩

/-- C8: the dotted-join normalization itself behaves as claimed (shown on the
inline join of `installContent`), but `readModMetadata` does not populate the
`version` (displayVersion) attribute for an object-form version: the source
discards the result of `concatVersionObject(version, false)` (updates.ts line
211), `version` stays a non-string, and the attribute is left unset. -/
theorem claim8_eval :
    joinVersionElements versionTriple = .ok "0.65.2"
    ∧ joinVersionElements (.obj [("major", .str "1")]) = .ok "1"
    ∧ joinVersionElements (.obj []) = .ok ""
    ∧ readModMetadata parseC8 filesC8 = .ok mC8
    ∧ mC8.propGet "version" = .undefined :=
  ⟨rfl, rfl, rfl, rfl, rfl⟩

/-! ## Supporting lemmas -/

/-- Updating one own property leaves lookups of every other key unchanged. -/
theorem lookup_setAssoc_ne (l : List (String × JsValue)) (k k' : String)
    (v : JsValue) (h : k ≠ k') :
    lookupAssoc (setAssoc l k v) k' = lookupAssoc l k' := by
  induction l with
  | nil => simp [setAssoc, lookupAssoc, h]
  | cons p rest ih =>
    obtain ⟨pk, pv⟩ := p
    by_cases hpk : pk = k
    · subst hpk
      simp [setAssoc, lookupAssoc, h]
    · simp only [setAssoc, lookupAssoc, if_neg hpk]
      by_cases hpk' : pk = k'
      · simp [hpk']
      · simp [hpk', ih]

/-- Bracket assignment never touches the internal map data. -/
theorem bracketSet_entries (m : JsMap) (k : String) (v : JsValue) :
    (m.bracketSet k v).entries = m.entries := rfl

/-- The primary-attribute pass only bracket-assigns, so a successful result
carries the empty internal map data it started from. -/
theorem primaryAttrs_entries :
    ∀ (parsed : JsValue) (m : JsMap), primaryAttrs parsed = .ok m → m.entries = [] := by
  intro parsed m h
  unfold primaryAttrs at h
  split at h
  · exact Except.noConfusion h
  all_goals repeat split at h
  all_goals (injection h with h2; subst h2; first | rfl | (split <;> rfl))

/-- The secondary-attribute pass only bracket-assigns as well. -/
theorem secondaryAttrs_entries (m : JsMap) (pv : JsValue) :
    (secondaryAttrs m pv).entries = m.entries := by
  dsimp only [secondaryAttrs]
  split <;> rfl

/-! ## Claim C2 -/

/-- C2: every attribute write in `readModMetadata` is a bracket property
assignment on the `Map` object, never `Map.prototype.set`, so every resolved
result has empty internal map data, and a caller iterating it as a `Map` —
as `installContent` does with `forEach` to build attribute instructions —
observes no attributes at all. -/
theorem claim2_holds :
    ∀ (parse : String → Option JsValue) (files : List FileEntry) (m : JsMap),
      readModMetadata parse files = .ok m →
      m.entries = [] ∧ attrInstructionsOf m = [] := by
  intro parse files m h
  have hent : m.entries = [] := by
    unfold readModMetadata at h
    split at h
    · exact Except.noConfusion h
    · split at h
      · injection h with h2
        subst h2
        rfl
      · split at h
        · exact Except.noConfusion h
        · rename_i m0 hm0
          split at h
          · injection h with h2
            subst h2
            exact primaryAttrs_entries _ _ hm0
          · split at h
            · injection h with h2
              subst h2
              exact primaryAttrs_entries _ _ hm0
            · injection h with h2
              subst h2
              rw [secondaryAttrs_entries]
              exact primaryAttrs_entries _ _ hm0
  refine ⟨hent, ?_⟩
  unfold attrInstructionsOf
  rw [hent]
  rfl

/-- C2 (witness): the conclusion at a concrete resolved input. -/
theorem claim2_witness :
    emptyJsMap.entries = [] ∧ attrInstructionsOf emptyJsMap = [] :=
  claim2_holds (fun _ => none) [⟨"mod_info.json", "x"⟩] emptyJsMap rfl

/-- A successful primary pass records `name`, `author` and `gameVersion`
verbatim — including `undefined` for missing keys, since object property reads
do not throw and the `getAttr` catch never fires. -/
theorem primaryAttrs_propGet :
    ∀ (parsed : JsValue) (m : JsMap), primaryAttrs parsed = .ok m →
      m.propGet "modName" = readAttr parsed "name"
      ∧ m.propGet "author" = readAttr parsed "author"
      ∧ m.propGet "gameVersion" = readAttr parsed "gameVersion" := by
  intro parsed m h
  unfold primaryAttrs at h
  split at h
  · exact Except.noConfusion h
  all_goals repeat split at h
  all_goals (injection h with h2; subst h2)
  all_goals (try split)
  all_goals simp [JsMap.propGet, JsMap.bracketSet, setAssoc, lookupAssoc, emptyJsMap]

/-- The primary pass fails exactly when `id` reads as `undefined`. -/
theorem primaryAttrs_error_iff :
    ∀ parsed : JsValue, (∃ e, primaryAttrs parsed = .error e) ↔ readAttr parsed "id" = .undefined := by
  intro parsed
  constructor
  · intro ⟨e, he⟩
    unfold primaryAttrs at he
    split at he
    · assumption
    · repeat split at he
      all_goals exact Except.noConfusion he
  · intro h
    refine ⟨.dataInvalid ("Missing, invalid or unsupported " ++ MOD_INFO_FILE), ?_⟩
    unfold primaryAttrs
    rw [h]

/-- The secondary pass writes only its four own keys, leaving the
primary-derived attributes untouched. -/
theorem secondaryAttrs_propGet (m : JsMap) (pv : JsValue) :
    (secondaryAttrs m pv).propGet "modName" = m.propGet "modName"
    ∧ (secondaryAttrs m pv).propGet "author" = m.propGet "author"
    ∧ (secondaryAttrs m pv).propGet "gameVersion" = m.propGet "gameVersion" := by
  dsimp only [secondaryAttrs]
  split <;>
    simp [JsMap.propGet, JsMap.bracketSet, lookup_setAssoc_ne]

/-- A resolved `readModMetadata` result is the primary map, possibly extended
by the secondary pass. -/
theorem readModMetadata_ok_shape :
    ∀ (parse : String → Option JsValue) (files : List FileEntry) (f : FileEntry)
      (parsed : JsValue) (m0 : JsMap),
      files.find? (fun fe => basename fe.path == MOD_INFO_FILE) = some f →
      parse f.content = some parsed →
      primaryAttrs parsed = .ok m0 →
      readModMetadata parse files = .ok m0
      ∨ ∃ pv, readModMetadata parse files = .ok (secondaryAttrs m0 pv) := by
  intro parse files f parsed m0 hf hp hpa
  unfold readModMetadata
  simp only [hf, hp, hpa]
  cases hvf : files.find? (fun fe => extname fe.path == VERSION_CHECKER_FILE_EXT) with
  | none => exact .inl rfl
  | some vf =>
    dsimp only
    cases hpv : parse vf.content with
    | none => exact .inl rfl
    | some pv => exact .inr ⟨pv, rfl⟩

/-! ## Claim C9 -/

/-- The parsed C9 descriptor: an `id` but no `name`, `author` or
`gameVersion`. -/
def parsedC9 : JsValue := .obj [("id", .str "lazylib")]

/-- Parser oracle recognizing the C9 descriptor text. -/
def parseC9 : String → Option JsValue := fun s => if s = "infoC9" then some parsedC9 else none

/-- The C9 candidate file list. -/
def filesC9 : List FileEntry := [⟨"mod_info.json", "infoC9"⟩]

/-- The attribute map `readModMetadata` produces for the C9 input. -/
def mC9 : JsMap :=
  ⟨[], [("modId", .undefined), ("modSharedId", .str "lazylib"), ("modName", .undefined),
        ("author", .undefined), ("gameVersion", .undefined)]⟩

/-- C9 (counterexample): the claim says a missing optional key such as `name`
resolves to the empty string.  On a descriptor with an `id` but no `name`, the
resolved `modName` attribute is JavaScript `undefined`, not `""`: `parsed[key]`
on an object does not throw for a missing key, so the `getAttr` fallback to
`""` never runs. -/
theorem claim9_counterexample :
    readModMetadata parseC9 filesC9 = .ok mC9
    ∧ mC9.propGet "modName" = .undefined
    ∧ mC9.propGet "modName" ≠ .str "" :=
  ⟨rfl, rfl, fun h => JsValue.noConfusion h⟩

/-- C9 (amended): when the primary descriptor parses, `readModMetadata` fails
with the invalid-descriptor error exactly when `id` reads as `undefined`; each
of the optional keys `name`, `author`, `gameVersion` that is missing resolves
the corresponding attribute to JavaScript `undefined` (stored as such), never
to an error. -/
theorem claim9_amended :
    ∀ (parse : String → Option JsValue) (files : List FileEntry) (f : FileEntry)
      (parsed : JsValue),
      files.find? (fun fe => basename fe.path == MOD_INFO_FILE) = some f →
      parse f.content = some parsed →
      ((∃ e, readModMetadata parse files = .error e) ↔ readAttr parsed "id" = .undefined)
      ∧ (∀ m, readModMetadata parse files = .ok m →
          (readAttr parsed "name" = .undefined → m.propGet "modName" = .undefined)
          ∧ (readAttr parsed "author" = .undefined → m.propGet "author" = .undefined)
          ∧ (readAttr parsed "gameVersion" = .undefined → m.propGet "gameVersion" = .undefined)) := by
  intro parse files f parsed hf hp
  cases hpa : primaryAttrs parsed with
  | error e =>
    have hid : readAttr parsed "id" = .undefined :=
      (primaryAttrs_error_iff parsed).mp ⟨e, hpa⟩
    have herr : readModMetadata parse files = .error e := by
      unfold readModMetadata
      simp only [hf, hp, hpa]
    constructor
    · exact ⟨fun _ => hid, fun _ => ⟨e, herr⟩⟩
    · intro m hm
      rw [herr] at hm
      exact Except.noConfusion hm
  | ok m0 =>
    have hid : ¬ readAttr parsed "id" = .undefined := by
      intro hid
      obtain ⟨e, he⟩ := (primaryAttrs_error_iff parsed).mpr hid
      rw [hpa] at he
      exact Except.noConfusion he
    have hshape := readModMetadata_ok_shape parse files f parsed m0 hf hp hpa
    have hok : ∀ m, readModMetadata parse files = .ok m →
        m.propGet "modName" = readAttr parsed "name"
        ∧ m.propGet "author" = readAttr parsed "author"
        ∧ m.propGet "gameVersion" = readAttr parsed "gameVersion" := by
      intro m hm
      obtain ⟨h1, h2, h3⟩ := primaryAttrs_propGet parsed m0 hpa
      cases hshape with
      | inl h0 =>
        rw [h0] at hm
        injection hm with hm2
        subst hm2
        exact ⟨h1, h2, h3⟩
      | inr h0 =>
        obtain ⟨pv, hpv⟩ := h0
        rw [hpv] at hm
        injection hm with hm2
        subst hm2
        obtain ⟨s1, s2, s3⟩ := secondaryAttrs_propGet m0 pv
        exact ⟨s1.trans h1, s2.trans h2, s3.trans h3⟩
    constructor
    · constructor
      · intro ⟨e, he⟩
        cases hshape with
        | inl h0 => rw [h0] at he; exact Except.noConfusion he
        | inr h0 => obtain ⟨pv, hpv⟩ := h0; rw [hpv] at he; exact Except.noConfusion he
      · intro h
        exact absurd h hid
    · intro m hm
      obtain ⟨h1, h2, h3⟩ := hok m hm
      exact ⟨fun hn => h1.trans hn, fun hn => h2.trans hn, fun hn => h3.trans hn⟩

/-- C9 (witness): the amended statement evaluated on the concrete C9 input. -/
theorem claim9_witness :
    ((∃ e, readModMetadata parseC9 filesC9 = .error e) ↔ readAttr parsedC9 "id" = .undefined)
    ∧ (∀ m, readModMetadata parseC9 filesC9 = .ok m →
        (readAttr parsedC9 "name" = .undefined → m.propGet "modName" = .undefined)
        ∧ (readAttr parsedC9 "author" = .undefined → m.propGet "author" = .undefined)
        ∧ (readAttr parsedC9 "gameVersion" = .undefined → m.propGet "gameVersion" = .undefined)) :=
  claim9_amended parseC9 filesC9 ⟨"mod_info.json", "infoC9"⟩ parsedC9 rfl rfl

/-! ## Claim C1 -/

/-- The remote version descriptor fetched in the C1 scenario: an object-form
`modVersion`. -/
def vfC1 : JsValue :=
  .obj [("modVersion", .obj [("major", .str "0"), ("minor", .str "65"), ("patch", .str "2")])]

/-- HTTP oracle for the C1 scenario. -/
def httpC1 : String → Option String := fun u => if u = "uC1" then some "bodyC1" else none

/-- Parser oracle for the C1 scenario. -/
def parseC1 : String → Option JsValue := fun s => if s = "bodyC1" then some vfC1 else none

/-- The mod-details argument of the C1 scenario. -/
def mdC1 : JsValue := .obj [("versionFileUrl", .str "uC1")]

/-- C1 (counterexample): the claim says a successfully fetched descriptor's
`modVersion` is normalized into a version string for the comparison.  For a
concrete fetched descriptor with an object-form `modVersion`, the fetch
handler stores the raw object — not a string — into `onlineVersion`
(`updates.ts` line 65 assigns `onlineVersionFile.modVersion` directly). -/
theorem claim1_counterexample :
    getOnlineModVersion httpC1 parseC1 mdC1 =
      .ok (some (.obj [("versionFileUrl", .str "uC1"),
        ("onlineVersion", .obj [("major", .str "0"), ("minor", .str "65"), ("patch", .str "2")])]))
    ∧ (jsGet (.obj [("versionFileUrl", .str "uC1"),
        ("onlineVersion", .obj [("major", .str "0"), ("minor", .str "65"), ("patch", .str "2")])])
        "onlineVersion").isString = false :=
  ⟨rfl, rfl⟩

/-- C1 (amended): for every mod whose remote version descriptor is
successfully fetched, the handler stores the descriptor's raw `modVersion`
value into the mod's `onlineVersion` field with no normalization, and the
update decision of `checkForStarsectorModsUpdates` is independent of that
field — it applies the semver oracle (`semver.rcompare` sort plus `semver.gt`)
to the mod's `versions` list and `version` attribute, never `isNewer`. -/
theorem claim1_amended :
    (∀ (http : String → Option String) (parse : String → Option JsValue)
        (props : List (String × JsValue)) (u body : String) (vf : JsValue),
        jsGet (.obj props) "versionFileUrl" = .str u →
        http u = some body →
        parse body = some vf →
        getOnlineModVersion http parse (.obj props) =
          .ok (some (jsSetProp (.obj props) "onlineVersion" (jsGet vf "modVersion"))))
    ∧ (∀ (rcmp : JsValue → JsValue → Int) (gt : JsValue → JsValue → Bool) (su x y : JsValue),
        (suUpdateStep rcmp gt (jsSetProp su "onlineVersion" x)).map Prod.snd =
        (suUpdateStep rcmp gt (jsSetProp su "onlineVersion" y)).map Prod.snd) := by
  constructor
  · intro http parse props u body vf h1 h2 h3
    unfold getOnlineModVersion
    dsimp only
    rw [h1]
    dsimp only
    rw [h2]
    dsimp only
    rw [h3]
  · intro rcmp gt su x y
    cases su with
    | obj props =>
      dsimp only [jsSetProp]
      unfold suUpdateStep
      dsimp only
      rw [lookup_setAssoc_ne props "onlineVersion" "versions" x (by simp),
          lookup_setAssoc_ne props "onlineVersion" "versions" y (by simp),
          lookup_setAssoc_ne props "onlineVersion" "mod" x (by simp),
          lookup_setAssoc_ne props "onlineVersion" "mod" y (by simp)]
      cases hv : lookupAssoc props "versions" with
      | none => rfl
      | some v =>
        cases v <;> try rfl
        rename_i vs
        dsimp only
        cases hs : sortVersionsByRcmp rcmp vs with
        | nil => rfl
        | cons v0 sortedRest =>
          dsimp only
          cases hm : lookupAssoc props "mod" with
          | none => rfl
          | some m => cases m <;> rfl
    | undefined => rfl
    | null => rfl
    | bool b => rfl
    | num n => rfl
    | str s => rfl
    | arr l => rfl

/-- C1 (witness): the amended statement's fetch-handler part applied at the
concrete C1 input, and its decision-independence part at a concrete mod. -/
theorem claim1_witness :
    getOnlineModVersion httpC1 parseC1 (.obj [("versionFileUrl", .str "uC1")]) =
      .ok (some (jsSetProp (.obj [("versionFileUrl", .str "uC1")]) "onlineVersion"
        (jsGet vfC1 "modVersion")))
    ∧ (suUpdateStep rcmpAny gtNever
        (jsSetProp (detailsFor "modC" "urlC" "1.0.0") "onlineVersion" (.str "x"))).map Prod.snd =
      (suUpdateStep rcmpAny gtNever
        (jsSetProp (detailsFor "modC" "urlC" "1.0.0") "onlineVersion" (.str "y"))).map Prod.snd :=
  ⟨claim1_amended.1 httpC1 parseC1 [("versionFileUrl", .str "uC1")] "uC1" "bodyC1" vfC1 rfl rfl rfl,
   claim1_amended.2 rcmpAny gtNever (detailsFor "modC" "urlC" "1.0.0") (.str "x") (.str "y")⟩

/-! ## Claim C10 -/

/-- Progress events add over concatenation. -/
theorem countProgress_append (a b : List UiAction) :
    countProgress (a ++ b) = countProgress a + countProgress b := by
  induction a with
  | nil => simp [countProgress]
  | cons x rest ih =>
    cases x <;> simp [countProgress, ih, Nat.add_assoc]

/-- Each found update contributes exactly one progress event. -/
theorem countProgress_updateActions (g : String) (now : Int) (total : Nat) :
    ∀ (pos : Nat) (l : List JsValue),
      countProgress (updateActions g now total pos l) = l.length := by
  intro pos l
  induction l generalizing pos with
  | nil => rfl
  | cons su rest ih =>
    simp only [updateActions, countProgress, progressAction]
    rw [ih]
    simp [Nat.add_comm]

/-- C10 (counterexample): the claim says an update check over N > 0 mods
emits exactly N + 2 progress events.  A concrete completed run over one mod
with one successful fetch and no update found emits exactly one progress event
(the initial one), not 1 + 2 = 3. -/
theorem claim10_counterexample :
    (checkForStarsectorModsUpdates httpOk parseOk rcmpAny gtNever 0 GAME_ID modsOk).2 = none
    ∧ countProgress
        (checkForStarsectorModsUpdates httpOk parseOk rcmpAny gtNever 0 GAME_ID modsOk).1 = 1
    ∧ modsOk.length = 1
    ∧ (1 : Nat) ≠ modsOk.length + 2 :=
  ⟨rfl, rfl, rfl, by decide⟩

/-- C10 (amended): a completed update check over a non-empty mod list emits
`1 + U` progress events — the initial one plus one per found update, with no
distinct final event — and ends by dismissing notification id
`bs-check-update-progress`, which differs from the id
`starsector-check-update-progress` the progress notification was posted
under, so the progress notification is not actually dismissed. -/
theorem claim10_amended :
    ∀ (http : String → Option String) (parse : String → Option JsValue)
      (rcmp : JsValue → JsValue → Int) (gt : JsValue → JsValue → Bool)
      (now : Int) (mods modList updates : List JsValue),
      mods ≠ [] →
      fetchAll http parse mods = .ok modList →
      computeUpdates rcmp gt modList = .ok updates →
      (checkForStarsectorModsUpdates http parse rcmp gt now GAME_ID mods).2 = none
      ∧ countProgress
          (checkForStarsectorModsUpdates http parse rcmp gt now GAME_ID mods).1 =
          1 + updates.length
      ∧ (checkForStarsectorModsUpdates http parse rcmp gt now GAME_ID mods).1.getLast? =
          some (.dismissNotification "bs-check-update-progress")
      ∧ "bs-check-update-progress" ≠ "starsector-check-update-progress" := by
  intro http parse rcmp gt now mods modList updates hne hf hu
  have hemp : mods.isEmpty = false := by
    cases mods with
    | nil => exact absurd rfl hne
    | cons a l => rfl
  have hrun : checkForStarsectorModsUpdates http parse rcmp gt now GAME_ID mods =
      ([progressAction 0 mods.length] ++ updateActions GAME_ID now mods.length 1 updates ++
        [.dismissNotification "bs-check-update-progress"], none) := by
    unfold checkForStarsectorModsUpdates
    rw [if_neg (by simp), hemp]
    rw [if_neg (by simp)]
    dsimp only
    rw [hf]
    dsimp only
    rw [hu]
  rw [hrun]
  refine ⟨rfl, ?_, ?_, by simp⟩
  · rw [countProgress_append, countProgress_append, countProgress_updateActions]
    simp [countProgress, progressAction]
  · rw [List.getLast?_append, List.getLast?_append]
    rfl

/-- The joined fetch result of the all-successful scenario: the details record
with the raw fetched `modVersion` stored in `onlineVersion`. -/
def fetchedC : JsValue :=
  jsSetProp (detailsFor "modC" "urlC" "1.0.0") "onlineVersion" (.str "1.0.1")

/-- C10 (witness): the amended statement on the concrete completed
one-mod run. -/
theorem claim10_witness :
    (checkForStarsectorModsUpdates httpOk parseOk rcmpAny gtNever 0 GAME_ID modsOk).2 = none
    ∧ countProgress
        (checkForStarsectorModsUpdates httpOk parseOk rcmpAny gtNever 0 GAME_ID modsOk).1 =
        1 + ([] : List JsValue).length
    ∧ (checkForStarsectorModsUpdates httpOk parseOk rcmpAny gtNever 0 GAME_ID modsOk).1.getLast? =
        some (.dismissNotification "bs-check-update-progress")
    ∧ "bs-check-update-progress" ≠ "starsector-check-update-progress" :=
  claim10_amended httpOk parseOk rcmpAny gtNever 0 modsOk [fetchedC] []
    (by simp [modsOk]) rfl rfl
